import Mathlib

/-!
Verification of the video line-overlay application (src/App.tsx).

The app composites animated lines over an uploaded video and re-encodes the
result in real time.  We embed the numeric and state-transition content of
the source shallowly:

* JS numbers are modelled as rationals where the code only does field
  arithmetic, floors, ceilings and rounds; the trigonometric overlay
  geometry is modelled over the reals.
* The React component state (useState hooks and refs) becomes an explicit
  `AppState` record; each handler and callback of the source becomes a pure
  state-transformer with the same name.
* MediaRecorder semantics: calling stop on a recording recorder moves it to
  the inactive state and fires the onstop callback afterwards; the onstop
  handler of the source (lines 235-242) runs both when playback ends and
  when the user cancels, because cancelProcessing (lines 319-340) also calls
  stop on the recorder.
-/

namespace Bypass

/-- JS `a || b` on numbers, for the nonnegative rationals used here:
returns `b` when `a` is falsy (zero), else `a`.  Source: `video.duration || 1`. -/
def jsOr (a b : ℚ) : ℚ := if a = 0 then b else a

/-- JS `Math.floor` on a rational. -/
def jsFloor (q : ℚ) : ℤ := ⌊q⌋

/-- JS `Math.ceil` on a rational. -/
def jsCeil (q : ℚ) : ℤ := ⌈q⌉

/-- JS `Math.round` on a rational: half-values round toward positive
infinity, which agrees with `⌊q + 1/2⌋` for every argument. -/
def jsRound (q : ℚ) : ℤ := ⌊q + 1/2⌋

/-- The `ProcessingState` interface of the source (lines 12-19). -/
structure ProcessingState where
  isProcessing : Bool
  progress : ℚ
  fps : ℚ
  processedFrames : ℤ
  totalFrames : ℤ
  estimatedTimeRemaining : ℚ
deriving DecidableEq, Repr

/-- The five line-setting useState hooks of the source (lines 27-31). -/
structure StyleState where
  showVertical : Bool
  showHorizontal : Bool
  showRotating : Bool
  lineThickness : ℕ
  lineOpacity : ℕ
deriving DecidableEq, Repr

/-- The blob assembled by the onstop handler: the recorded chunk sizes and
the MIME type tag it is created with (source line 236). -/
structure Artifact where
  chunks : List ℕ
  type : String
deriving DecidableEq, Repr

/-- The observable state of the MediaRecorder. -/
inductive RecorderState
  | inactive
  | recording
deriving DecidableEq, Repr

/-- The component state of the app: useState hooks plus the refs that the
processing pipeline mutates. -/
structure AppState where
  videoUrl : Option String
  processedVideoUrl : Option Artifact
  style : StyleState
  processing : ProcessingState
  recorder : RecorderState
  recordedChunks : List ℕ
  mimeType : String
  tracksStopped : Bool
  audioPaused : Bool
  audioContextClosed : Bool
  animationScheduled : Bool
deriving DecidableEq, Repr

/-- Progress used for the overlay: `currentTime / (duration || 1)`
(source lines 134 and 273). -/
def progressOf (currentTime duration : ℚ) : ℚ :=
  currentTime / jsOr duration 1

/-- The setProcessing call of the compositor loop (source lines 280-287),
executed on every iteration in which the hidden video is neither paused nor
ended.  `fps` is the target rate, fixed to 30 at line 171, so it is inlined. -/
def renderFrameUpdate (duration currentTime elapsed : ℚ) : ProcessingState :=
  { isProcessing := true
    progress := currentTime / duration * 100
    fps := (jsRound (currentTime / elapsed * 10) : ℚ) / 10
    processedFrames := jsFloor (currentTime * 30)
    totalFrames := jsCeil duration
    estimatedTimeRemaining := (jsRound (max 0 (duration - currentTime)) : ℚ) }

/-- The setProcessing call at session start (source lines 173-180). -/
def initProcessing (duration : ℚ) : ProcessingState :=
  { isProcessing := true
    progress := 0
    fps := 0
    processedFrames := 0
    totalFrames := jsCeil duration
    estimatedTimeRemaining := (jsCeil duration : ℚ) }

/-- handleFileUpload (source lines 96-104): when a file was selected, set
the video URL, clear the processed video, and reset progress and
processedFrames, leaving everything else as it was. -/
def handleFileUpload (s : AppState) (file : Option String) : AppState :=
  match file with
  | none => s
  | some f =>
    { s with
      videoUrl := some f
      processedVideoUrl := none
      processing := { s.processing with progress := 0, processedFrames := 0 } }

/-- The ondataavailable handler (source lines 229-233): push the chunk when
its size is positive. -/
def ondataavailable (s : AppState) (size : ℕ) : AppState :=
  if 0 < size then { s with recordedChunks := s.recordedChunks ++ [size] } else s

/-- The onstop handler of the recorder (source lines 235-242): build the
blob from the recorded chunks tagged with the chosen MIME type, publish it
as the processed video, set isProcessing to false and progress to 100, and
close the audio context.  The recorder fires this after `stop()` is called,
on completion and on cancellation alike. -/
def onstop (s : AppState) : AppState :=
  { s with
    processedVideoUrl := some ⟨s.recordedChunks, s.mimeType⟩
    processing := { s.processing with isProcessing := false, progress := 100 }
    audioContextClosed := true }

/-- The ended branch of the compositor loop (source lines 290-311): stop the
recorder, pause the audio, close the audio context, stop the stream tracks
and cancel the scheduled animation frame. -/
def renderFrameEnded (s : AppState) : AppState :=
  { s with
    recorder := RecorderState.inactive
    audioPaused := true
    audioContextClosed := true
    tracksStopped := true
    animationScheduled := false }

/-- A completed session: the ended branch runs, then the queued onstop
handler fires. -/
def completeSession (s : AppState) : AppState :=
  onstop (renderFrameEnded s)

/-- cancelProcessing (source lines 319-340).  Returns the synchronously
updated state together with the flag telling whether `stop()` was invoked on
the recorder (true exactly when the recorder was not inactive), in which
case the onstop handler fires afterwards. -/
def cancelProcessing (s : AppState) : AppState × Bool :=
  ({ s with
      recorder := RecorderState.inactive
      tracksStopped := true
      audioPaused := true
      audioContextClosed := true
      animationScheduled := false
      processing := { s.processing with isProcessing := false } },
   s.recorder ≠ RecorderState.inactive)

/-- A cancelled session: cancelProcessing runs, then the onstop handler
fires whenever `stop()` was invoked. -/
def cancelSession (s : AppState) : AppState :=
  let r := cancelProcessing s
  if r.2 then onstop r.1 else r.1

/-- The MIME type probe of the source (lines 214-218): first supported of
vp9+opus and vp8+opus, else the bare webm container. -/
def selectMimeType (isTypeSupported : String → Bool) : String :=
  if isTypeSupported "video/webm;codecs=vp9,opus" then "video/webm;codecs=vp9,opus"
  else if isTypeSupported "video/webm;codecs=vp8,opus" then "video/webm;codecs=vp8,opus"
  else "video/webm"

/-- The audio readiness wait of the source (lines 191-196): a promise that
resolves on the canplaythrough event, rejects on the error event, and is
resolved by a 1-second timeout as a fallback; the first settlement wins.
Inputs are the times (in seconds) at which canplaythrough and error would
fire, if ever.  Returns whether the promise resolved, and the settle time. -/
def audioReadyWait (canplayAt errorAt : Option ℚ) : Bool × ℚ :=
  let resolveTime := match canplayAt with
    | some t => min t 1
    | none => 1
  match errorAt with
  | some te => if te < resolveTime then (false, te) else (true, resolveTime)
  | none => (true, resolveTime)

/-- The environment a processing run observes: when the audio element would
fire canplaythrough or error, which MIME types the host supports, and the
duration of the source video. -/
structure Env where
  canplayAt : Option ℚ
  audioErrorAt : Option ℚ
  isTypeSupported : String → Bool
  duration : ℚ

/-- processVideo up to the start of the render loop (source lines 157-262):
publish the initial processing state, await audio readiness, and - when the
await resolved rather than rejected - select the MIME type, reset the chunk
buffer, start the recorder and schedule the loop.  When the await rejects
the async function aborts with no further state change. -/
def processVideo (s : AppState) (env : Env) : AppState :=
  let s1 := { s with processing := initProcessing env.duration }
  match (audioReadyWait env.canplayAt env.audioErrorAt).1 with
  | false => s1
  | true =>
    { s1 with
      mimeType := selectMimeType env.isTypeSupported
      recorder := RecorderState.recording
      recordedChunks := []
      animationScheduled := true
      tracksStopped := false
      audioPaused := false
      audioContextClosed := false }

/-- A concrete mid-session state: video uploaded, session running, two
chunks captured, playback neither paused nor ended. -/
def exampleRunning : AppState :=
  { videoUrl := some "blob:video-a"
    processedVideoUrl := none
    style := { showVertical := true, showHorizontal := false, showRotating := false,
               lineThickness := 2, lineOpacity := 70 }
    processing := { isProcessing := true, progress := 20, fps := 1,
                    processedFrames := 60, totalFrames := 10,
                    estimatedTimeRemaining := 8 }
    recorder := RecorderState.recording
    recordedChunks := [512, 1024]
    mimeType := "video/webm;codecs=vp9,opus"
    tracksStopped := false
    audioPaused := false
    audioContextClosed := false
    animationScheduled := true }

/-- A second concrete running state, cancelled two seconds in. -/
def exampleRunningB : AppState :=
  { videoUrl := some "blob:video-b"
    processedVideoUrl := none
    style := { showVertical := true, showHorizontal := true, showRotating := true,
               lineThickness := 5, lineOpacity := 50 }
    processing := { isProcessing := true, progress := 37, fps := 1,
                    processedFrames := 111, totalFrames := 10,
                    estimatedTimeRemaining := 6 }
    recorder := RecorderState.recording
    recordedChunks := [256, 256, 128]
    mimeType := "video/webm"
    tracksStopped := false
    audioPaused := false
    audioContextClosed := false
    animationScheduled := true }

/-- A concrete idle state, before any processing run. -/
def exampleIdle : AppState :=
  { videoUrl := some "blob:video-c"
    processedVideoUrl := none
    style := { showVertical := true, showHorizontal := false, showRotating := false,
               lineThickness := 2, lineOpacity := 70 }
    processing := { isProcessing := false, progress := 0, fps := 0,
                    processedFrames := 0, totalFrames := 0,
                    estimatedTimeRemaining := 0 }
    recorder := RecorderState.inactive
    recordedChunks := []
    mimeType := ""
    tracksStopped := false
    audioPaused := false
    audioContextClosed := false
    animationScheduled := false }

/-- An environment whose audio element never signals readiness and never
errors; only the 1-second timeout can settle the readiness promise. -/
def envTimeout : Env :=
  { canplayAt := none
    audioErrorAt := none
    isTypeSupported := fun _ => true
    duration := 10 }

/-- An environment supporting only the vp8+opus combination. -/
def envVp8 : Env :=
  { canplayAt := none
    audioErrorAt := none
    isTypeSupported := fun m => m == "video/webm;codecs=vp8,opus"
    duration := 10 }

/-- C3 counterexample: with duration 0 (and currentTime 0, the only playback
position a zero-length video attains), the guarded progress computation
`currentTime / (duration || 1)` yields 0, not the claimed constant 1. -/
theorem C3_counterexample : ¬ progressOf 0 0 = 1 := by
  norm_num [progressOf, jsOr]

/-- C3 (amended): the per-iteration progress computation never divides by
zero: when the duration is 0 the falsy-guard replaces the denominator with
1, so progress equals currentTime (not the constant 1); for every nonzero
duration it equals currentTime / duration. -/
theorem C3_guarded_progress (c : ℚ) :
    progressOf c 0 = c ∧ jsOr 0 1 = 1 ∧ (∀ d : ℚ, d ≠ 0 → progressOf c d = c / d) := by
  refine ⟨by simp [progressOf, jsOr], by simp [jsOr], ?_⟩
  intro d hd
  simp [progressOf, jsOr, hd]

/-- C3 witness: the amended statement evaluated at currentTime 3, with the
nonzero-duration hypothesis discharged at duration 2. -/
theorem C3_guarded_progress_witness :
    progressOf 3 0 = 3 ∧ progressOf 3 2 = 3 / 2 :=
  ⟨(C3_guarded_progress 3).1, (C3_guarded_progress 3).2.2 2 (by norm_num)⟩

/-- C4 counterexample: at duration 10, currentTime 1, elapsed 3 the state
written by the compositor loop has throughputFps 3/10 (the quotient rounded
to one decimal by the source), not the exact quotient 1/3 the claim states. -/
theorem C4_counterexample : ¬ (renderFrameUpdate 10 1 3).fps = 1 / 3 := by
  norm_num [renderFrameUpdate, jsRound]

/-- C4 (amended): on every iteration of the compositor loop the state is
updated to: progressPercent = currentTime/duration × 100 and framesDone =
floor(currentTime × 30) exactly as claimed, but throughputFps is the
quotient currentTime/elapsed rounded to one decimal place and etaSeconds is
max(0, duration − currentTime) rounded to the nearest integer. -/
theorem C4_frame_update (d c e : ℚ) :
    (renderFrameUpdate d c e).isProcessing = true ∧
    (renderFrameUpdate d c e).progress = c / d * 100 ∧
    (renderFrameUpdate d c e).fps = (⌊c / e * 10 + 1/2⌋ : ℚ) / 10 ∧
    (renderFrameUpdate d c e).processedFrames = ⌊c * 30⌋ ∧
    (renderFrameUpdate d c e).totalFrames = ⌈d⌉ ∧
    (renderFrameUpdate d c e).estimatedTimeRemaining = (⌊max 0 (d - c) + 1/2⌋ : ℚ) := by
  exact ⟨rfl, rfl, rfl, rfl, rfl, rfl⟩

/-- C10 counterexample: at duration 1, currentTime 1/25 the hypothesis
currentTime > ceil(duration)/30 holds, yet framesDone = floor(30/25) = 1
equals framesTotal = 1 instead of exceeding it. -/
theorem C10_counterexample :
    (⌈(1:ℚ)⌉ : ℚ) / 30 < 1/25 ∧
    ¬ (renderFrameUpdate 1 (1/25) 1).totalFrames
        < (renderFrameUpdate 1 (1/25) 1).processedFrames := by
  constructor
  · norm_num
  · norm_num [renderFrameUpdate, jsFloor, jsCeil]

/-- C10 (amended): framesDone = floor(currentTime × 30) counts target-rate
frames while framesTotal = ceil(duration) counts seconds; framesDone is
guaranteed to exceed framesTotal once currentTime ≥ (ceil(duration)+1)/30
(the threshold ceil(duration)/30 of the claim only guarantees ≥). -/
theorem C10_frame_units (d c e : ℚ) (h : ((⌈d⌉ : ℚ) + 1) / 30 ≤ c) :
    (renderFrameUpdate d c e).processedFrames = ⌊c * 30⌋ ∧
    (renderFrameUpdate d c e).totalFrames = ⌈d⌉ ∧
    (renderFrameUpdate d c e).totalFrames < (renderFrameUpdate d c e).processedFrames := by
  refine ⟨rfl, rfl, ?_⟩
  show jsCeil d < jsFloor (c * 30)
  have h30 : ((⌈d⌉ : ℚ) + 1) ≤ c * 30 := by
    have := (div_le_iff₀ (by norm_num : (0:ℚ) < 30)).mp h
    linarith
  unfold jsCeil jsFloor
  refine Int.lt_iff_add_one_le.mpr ?_
  rw [Int.le_floor]
  push_cast
  exact h30

/-- C10 witness: the amended statement at duration 1, currentTime 1/15,
where framesDone = 2 exceeds framesTotal = 1. -/
theorem C10_frame_units_witness :
    (renderFrameUpdate 1 (1/15) 1).totalFrames
      < (renderFrameUpdate 1 (1/15) 1).processedFrames :=
  (C10_frame_units 1 (1/15) 1 (by norm_num)).2.2

/-- C9: uploading a new source file sets the video URL, clears the previous
Output Artifact and resets progress and processedFrames to 0, leaving the
style configuration and the remaining processing-state fields unchanged. -/
theorem C9_upload_resets (s : AppState) (f : String) :
    (handleFileUpload s (some f)).videoUrl = some f ∧
    (handleFileUpload s (some f)).processedVideoUrl = none ∧
    (handleFileUpload s (some f)).processing.progress = 0 ∧
    (handleFileUpload s (some f)).processing.processedFrames = 0 ∧
    (handleFileUpload s (some f)).style = s.style ∧
    (handleFileUpload s (some f)).processing.isProcessing = s.processing.isProcessing ∧
    (handleFileUpload s (some f)).processing.fps = s.processing.fps ∧
    (handleFileUpload s (some f)).processing.totalFrames = s.processing.totalFrames ∧
    (handleFileUpload s (some f)).processing.estimatedTimeRemaining
      = s.processing.estimatedTimeRemaining := by
  exact ⟨rfl, rfl, rfl, rfl, rfl, rfl, rfl, rfl, rfl⟩

/-- C1 counterexample: cancelling the concrete running session
exampleRunning (playback neither paused nor ended, two chunks recorded)
leaves an Output Artifact - the onstop handler fired by stopping the
recorder assembles the captured chunks into a published blob - and sets
progressPercent to 100 rather than resetting it. -/
theorem C1_counterexample :
    (cancelSession exampleRunning).processedVideoUrl
      = some ⟨[512, 1024], "video/webm;codecs=vp9,opus"⟩ ∧
    (cancelSession exampleRunning).processing.progress = 100 := by
  simp [cancelSession, cancelProcessing, onstop, exampleRunning]

/-- C1 (amended): cancelling a running session stops the scheduled loop,
the stream tracks, the audio element and the audio context, and the
observed processing state afterwards is inactive; however an Output
Artifact does come to exist: stopping the recorder fires its onstop
handler, which publishes the chunks captured so far as the processed video
and sets progressPercent to 100. -/
theorem C1_cancel_behaviour (s : AppState) (h : s.recorder = RecorderState.recording) :
    (cancelSession s).processing.isProcessing = false ∧
    (cancelSession s).animationScheduled = false ∧
    (cancelSession s).tracksStopped = true ∧
    (cancelSession s).audioPaused = true ∧
    (cancelSession s).audioContextClosed = true ∧
    (cancelSession s).processedVideoUrl = some ⟨s.recordedChunks, s.mimeType⟩ ∧
    (cancelSession s).processing.progress = 100 := by
  simp [cancelSession, cancelProcessing, onstop, h]

/-- C1 witness: the amended statement at the concrete running session
exampleRunning. -/
theorem C1_cancel_behaviour_witness :
    (cancelSession exampleRunning).processing.isProcessing = false ∧
    (cancelSession exampleRunning).animationScheduled = false ∧
    (cancelSession exampleRunning).tracksStopped = true ∧
    (cancelSession exampleRunning).audioPaused = true ∧
    (cancelSession exampleRunning).audioContextClosed = true ∧
    (cancelSession exampleRunning).processedVideoUrl
      = some ⟨exampleRunning.recordedChunks, exampleRunning.mimeType⟩ ∧
    (cancelSession exampleRunning).processing.progress = 100 :=
  C1_cancel_behaviour exampleRunning rfl

/-- C2 counterexample: the concrete session exampleRunningB terminated by
cancellation - not by completion - also ends with progressPercent exactly
100, because cancelProcessing stops the recorder and the onstop handler it
fires sets progress to 100 on every stop. -/
theorem C2_counterexample :
    (cancelSession exampleRunningB).processing.progress = 100 ∧
    (cancelSession exampleRunningB).processing.isProcessing = false := by
  simp [cancelSession, cancelProcessing, onstop, exampleRunningB]

/-- C2 (amended): over one session progressPercent is monotonically
non-decreasing - starting at 0, through the per-frame updates driven by a
non-decreasing currentTime bounded by the duration, and ending at 100 - but
it ends at exactly 100 both when the session completes and when it is
cancelled, since the onstop handler fires in both terminal transitions. -/
theorem C2_progress_monotone (d : ℚ) (c e : ℕ → ℚ) (hd : 0 < d)
    (hmono : Monotone c) (h0 : 0 ≤ c 0) (hle : ∀ n, c n ≤ d) :
    Monotone (fun n => (renderFrameUpdate d (c n) (e n)).progress) ∧
    (∀ n, (renderFrameUpdate d (c n) (e n)).progress ≤ 100) ∧
    (initProcessing d).progress ≤ (renderFrameUpdate d (c 0) (e 0)).progress ∧
    (∀ s : AppState, s.recorder = RecorderState.recording →
      (completeSession s).processing.progress = 100 ∧
      (cancelSession s).processing.progress = 100) := by
  refine ⟨?_, ?_, ?_, ?_⟩
  · intro a b hab
    show c a / d * 100 ≤ c b / d * 100
    have hcab := hmono hab
    gcongr
  · intro n
    show c n / d * 100 ≤ 100
    have h1 : c n / d ≤ 1 := (div_le_one hd).mpr (hle n)
    linarith
  · show (0:ℚ) ≤ c 0 / d * 100
    positivity
  · intro s hs
    constructor
    · simp [completeSession, onstop, renderFrameEnded]
    · simp [cancelSession, cancelProcessing, onstop, hs]

/-- C2 witness: the amended statement at duration 10 with the constant
frame schedule 5, and at the concrete running session exampleRunning. -/
theorem C2_progress_monotone_witness :
    (renderFrameUpdate 10 5 1).progress ≤ 100 ∧
    (cancelSession exampleRunning).processing.progress = 100 :=
  ⟨(C2_progress_monotone 10 (fun _ => 5) (fun _ => 1) (by norm_num) monotone_const
      (by norm_num) (fun _ => by norm_num)).2.1 0,
   ((C2_progress_monotone 10 (fun _ => 5) (fun _ => 1) (by norm_num) monotone_const
      (by norm_num) (fun _ => by norm_num)).2.2.2 exampleRunning rfl).2⟩

/-- C7: the audio startup wait settles at the canplaythrough signal or at
the fixed 1-second timeout, whichever is first; when readiness never fires
within 1 second and no load error is raised, the promise resolves at the
timeout and the session still proceeds to Running (recorder recording,
isProcessing true) instead of failing. -/
theorem C7_audio_timeout_fallback (s : AppState) (env : Env)
    (herr : env.audioErrorAt = none)
    (hc : ∀ t : ℚ, env.canplayAt = some t → 1 ≤ t) :
    audioReadyWait env.canplayAt env.audioErrorAt = (true, 1) ∧
    (processVideo s env).recorder = RecorderState.recording ∧
    (processVideo s env).processing.isProcessing = true ∧
    (∀ tc : ℚ, audioReadyWait (some tc) none = (true, min tc 1)) := by
  have hw : audioReadyWait env.canplayAt env.audioErrorAt = (true, 1) := by
    cases hcp : env.canplayAt with
    | none => simp [audioReadyWait, herr, hcp]
    | some t =>
      have h1 : (1:ℚ) ≤ t := hc t hcp
      simp [audioReadyWait, herr, hcp, min_eq_right h1]
  refine ⟨hw, ?_, ?_, fun tc => by simp [audioReadyWait]⟩
  · simp only [processVideo, hw]
  · simp only [processVideo, hw]
    simp [initProcessing]

/-- C7 witness: the concrete environment envTimeout, whose audio element
never signals readiness and never errors, still reaches a running session. -/
theorem C7_audio_timeout_fallback_witness :
    audioReadyWait none none = (true, 1) ∧
    (processVideo exampleIdle envTimeout).recorder = RecorderState.recording :=
  ⟨(C7_audio_timeout_fallback exampleIdle envTimeout rfl (fun _ h => nomatch h)).1,
   (C7_audio_timeout_fallback exampleIdle envTimeout rfl (fun _ h => nomatch h)).2.1⟩

/-- C8: the container/codec pair is the first supported among
vp9+opus, vp8+opus, and the bare webm container as final fallback; the
selected type is stored by the session (configuring the recorder) and the
blob built by the onstop handler carries exactly that stored type. -/
theorem C8_mime_selection (s : AppState) (env : Env)
    (hok : (audioReadyWait env.canplayAt env.audioErrorAt).1 = true) :
    (env.isTypeSupported "video/webm;codecs=vp9,opus" = true →
      selectMimeType env.isTypeSupported = "video/webm;codecs=vp9,opus") ∧
    (env.isTypeSupported "video/webm;codecs=vp9,opus" = false →
      env.isTypeSupported "video/webm;codecs=vp8,opus" = true →
      selectMimeType env.isTypeSupported = "video/webm;codecs=vp8,opus") ∧
    (env.isTypeSupported "video/webm;codecs=vp9,opus" = false →
      env.isTypeSupported "video/webm;codecs=vp8,opus" = false →
      selectMimeType env.isTypeSupported = "video/webm") ∧
    (processVideo s env).mimeType = selectMimeType env.isTypeSupported ∧
    (∀ s' : AppState, s'.recorder = RecorderState.recording →
      (completeSession s').processedVideoUrl = some ⟨s'.recordedChunks, s'.mimeType⟩) := by
  refine ⟨?_, ?_, ?_, ?_, ?_⟩
  · intro h9; simp [selectMimeType, h9]
  · intro h9 h8; simp [selectMimeType, h9, h8]
  · intro h9 h8; simp [selectMimeType, h9, h8]
  · simp only [processVideo, hok]
  · intro s' hs'
    simp [completeSession, onstop, renderFrameEnded]

/-- C8 witness: in the concrete environment envVp8, which supports only
vp8+opus, the selection takes the second preference and the session stores
it as its MIME type. -/
theorem C8_mime_selection_witness :
    selectMimeType envVp8.isTypeSupported = "video/webm;codecs=vp8,opus" ∧
    (processVideo exampleIdle envVp8).mimeType = selectMimeType envVp8.isTypeSupported :=
  ⟨(C8_mime_selection exampleIdle envVp8 rfl).2.1 (by decide) (by decide),
   (C8_mime_selection exampleIdle envVp8 rfl).2.2.2.1⟩

/-! ## Overlay Renderer (drawLines, source lines 53-93)

The geometry runs on JS floats; we model it over the reals.  A canvas
stroke of the 2d context is a segment of a given line width; drawing with
strokeStyle rgba(255,255,255,opacity) source-over-composites pure white at
that alpha onto the pixels the stroke covers.  A surface is modelled as one
colour channel per point; the three strokes of drawLines are applied in
source order: vertical, horizontal, rotating. -/

/-- The style configuration read by the renderer (thickness in px, opacity
in percent, as held by the sliders). -/
structure StyleConfig where
  showVertical : Bool
  showHorizontal : Bool
  showRotating : Bool
  lineThickness : ℝ
  lineOpacity : ℝ

/-- A stroked segment: one moveTo/lineTo pair of the source. -/
structure Segment where
  x1 : ℝ
  y1 : ℝ
  x2 : ℝ
  y2 : ℝ

/-- The x position of the vertical line (source line 62):
abs(sin(progress * PI * 2)) * width. -/
noncomputable def verticalLineX (progress width : ℝ) : ℝ :=
  |Real.sin (progress * Real.pi * 2)| * width

/-- The y position of the horizontal line (source line 71). -/
noncomputable def horizontalLineY (progress height : ℝ) : ℝ :=
  |Real.sin (progress * Real.pi * 2)| * height

/-- The angle of the rotating line (source line 83). -/
noncomputable def rotatingAngle (progress : ℝ) : ℝ :=
  progress * Real.pi * 2

/-- The list of segments drawLines strokes, in source order: the
full-height vertical line at its x, the full-width horizontal line at its
y, and the rotating radius from the centre (source lines 61-92). -/
noncomputable def drawLinesSegments (cfg : StyleConfig) (width height progress : ℝ) :
    List Segment :=
  (if cfg.showVertical then
    [⟨verticalLineX progress width, 0, verticalLineX progress width, height⟩] else []) ++
  (if cfg.showHorizontal then
    [⟨0, horizontalLineY progress height, width, horizontalLineY progress height⟩] else []) ++
  (if cfg.showRotating then
    [⟨width / 2, height / 2,
      width / 2 + Real.cos (rotatingAngle progress) * (min width height * 0.4),
      height / 2 + Real.sin (rotatingAngle progress) * (min width height * 0.4)⟩] else [])

/-- A stroke of line width t along a segment covers the points within
distance t/2 of the segment. -/
def segCovers (s : Segment) (thickness : ℝ) (q : ℝ × ℝ) : Prop :=
  ∃ u : ℝ, 0 ≤ u ∧ u ≤ 1 ∧
    (q.1 - (s.x1 + u * (s.x2 - s.x1)))^2 + (q.2 - (s.y1 + u * (s.y2 - s.y1)))^2
      ≤ (thickness / 2)^2

/-- Source-over compositing of pure white (channel value 255) at the given
alpha onto an old channel value. -/
def strokePixel (opacity old : ℝ) : ℝ :=
  opacity * 255 + (1 - opacity) * old

open Classical in
/-- Stroke one segment onto a surface: covered points are composited,
the rest are untouched. -/
noncomputable def strokeSegment (seg : Segment) (thickness opacity : ℝ)
    (surface : ℝ × ℝ → ℝ) : ℝ × ℝ → ℝ :=
  fun q => if segCovers seg thickness q then strokePixel opacity (surface q) else surface q

/-- Stroke a list of segments in order. -/
noncomputable def strokeAll (segs : List Segment) (thickness opacity : ℝ)
    (surface : ℝ × ℝ → ℝ) : ℝ × ℝ → ℝ :=
  segs.foldl (fun s seg => strokeSegment seg thickness opacity s) surface

/-- drawLines (source lines 53-93): stroke the enabled lines onto the
surface with a single stroke style of alpha lineOpacity/100 and line width
lineThickness. -/
noncomputable def drawLines (cfg : StyleConfig) (width height progress : ℝ)
    (surface : ℝ × ℝ → ℝ) : ℝ × ℝ → ℝ :=
  strokeAll (drawLinesSegments cfg width height progress)
    cfg.lineThickness (cfg.lineOpacity / 100) surface

/-- With full opacity, a stroked point is set to 255 regardless of what was
underneath. -/
theorem strokePixel_one (old : ℝ) : strokePixel 1 old = 255 := by
  simp [strokePixel]

open Classical in
/-- At alpha 1, stroking a segment list sets every covered point to 255 and
leaves the rest of the surface unchanged. -/
theorem strokeAll_one_apply (segs : List Segment) (t : ℝ) (s : ℝ × ℝ → ℝ) (q : ℝ × ℝ) :
    strokeAll segs t 1 s q
      = if ∃ seg ∈ segs, segCovers seg t q then 255 else s q := by
  induction segs generalizing s with
  | nil => simp [strokeAll]
  | cons a l ih =>
    have hstep : strokeAll (a :: l) t 1 s = strokeAll l t 1 (strokeSegment a t 1 s) := rfl
    rw [hstep, ih]
    by_cases hl : ∃ seg ∈ l, segCovers seg t q
    · rw [if_pos hl, if_pos]
      exact hl.imp fun seg hseg => ⟨List.mem_cons_of_mem a hseg.1, hseg.2⟩
    · rw [if_neg hl]
      by_cases ha : segCovers a t q
      · rw [strokeSegment, if_pos ha, strokePixel_one, if_pos ⟨a, List.mem_cons_self a l, ha⟩]
      · rw [strokeSegment, if_neg ha, if_neg]
        rintro ⟨seg, hmem, hcov⟩
        rcases List.mem_cons.mp hmem with h | h
        · exact ha (h ▸ hcov)
        · exact hl ⟨seg, h, hcov⟩

/-- C6 counterexample: with the default style (vertical line only,
thickness 2, opacity 70 percent) on a black 100 x 100 surface at progress
0, the pixel at the origin is 178.5 after one call but 232.05 after two
calls in succession: each call source-over-composites a translucent white
stroke, so the double call is not visually identical to a single call. -/
theorem C6_counterexample :
    ¬ drawLines ⟨true, false, false, 2, 70⟩ 100 100 0
        (drawLines ⟨true, false, false, 2, 70⟩ 100 100 0 (fun _ => 0)) (0, 0)
      = drawLines ⟨true, false, false, 2, 70⟩ 100 100 0 (fun _ => 0) (0, 0) := by
  have hx : verticalLineX 0 100 = 0 := by
    simp [verticalLineX]
  have hsegs : drawLinesSegments ⟨true, false, false, 2, 70⟩ 100 100 0
      = [⟨0, 0, 0, 100⟩] := by
    simp [drawLinesSegments, hx]
  have hcov : segCovers ⟨0, 0, 0, 100⟩ 2 ((0 : ℝ), (0 : ℝ)) := by
    refine ⟨0, le_refl 0, by norm_num, by norm_num⟩
  have happly : ∀ s : ℝ × ℝ → ℝ,
      drawLines ⟨true, false, false, 2, 70⟩ 100 100 0 s (0, 0)
        = strokePixel (70 / 100) (s (0, 0)) := by
    intro s
    rw [drawLines, hsegs]
    show strokeSegment ⟨0, 0, 0, 100⟩ 2 (70 / 100) s (0, 0)
        = strokePixel (70 / 100) (s (0, 0))
    rw [strokeSegment, if_pos hcov]
  rw [happly, happly]
  norm_num [strokePixel]

/-- C6 (amended): the Overlay Renderer carries no hidden state - its output
is a function of the supplied surface, dimensions, progress and style
alone - but two successive calls are visually identical to one only in
degenerate cases such as full opacity: at lineOpacity = 100 every covered
point is saturated to white, so the second call changes nothing; at lower
opacities the second call composites further white onto the first
call's strokes (see the counterexample). -/
theorem C6_idempotent_full_opacity (cfg : StyleConfig) (w h p : ℝ)
    (s : ℝ × ℝ → ℝ) (hop : cfg.lineOpacity = 100) :
    drawLines cfg w h p (drawLines cfg w h p s) = drawLines cfg w h p s := by
  have h1 : cfg.lineOpacity / 100 = 1 := by rw [hop]; norm_num
  funext q
  rw [drawLines, drawLines, h1, strokeAll_one_apply, strokeAll_one_apply]
  by_cases hc : ∃ seg ∈ drawLinesSegments cfg w h p, segCovers seg cfg.lineThickness q
  · rw [if_pos hc, if_pos hc]
  · rw [if_neg hc, if_neg hc]

/-- C6 witness: the amended statement at the concrete configuration with
all three lines enabled, thickness 5, opacity 100, on the zero surface. -/
theorem C6_idempotent_full_opacity_witness :
    drawLines ⟨true, true, true, 5, 100⟩ 320 240 (1/3)
        (drawLines ⟨true, true, true, 5, 100⟩ 320 240 (1/3) (fun _ => 0))
      = drawLines ⟨true, true, true, 5, 100⟩ 320 240 (1/3) (fun _ => 0) :=
  C6_idempotent_full_opacity ⟨true, true, true, 5, 100⟩ 320 240 (1/3) (fun _ => 0) rfl

/-! ## Analysis of the vertical-line position (claim C5)

The x position is p ↦ |sin(p · π · 2)| · width.  It is continuous
everywhere; at the bounce extremes p = 1/4 and p = 3/4 the sine has a
smooth extremum, so the absolute value is differentiable there (no cusp);
the genuine interior cusp is at p = 1/2, where the sine crosses zero with
nonzero slope, so the absolute value has right derivative +2π·width and
left derivative −2π·width. -/

/-- Derivative of the sine loop p ↦ sin(p · π · 2). -/
theorem hasDerivAt_sinLoop (x : ℝ) :
    HasDerivAt (fun p : ℝ => Real.sin (p * Real.pi * 2))
      (Real.cos (x * Real.pi * 2) * (Real.pi * 2)) x := by
  have hL : HasDerivAt (fun p : ℝ => p * Real.pi * 2) (Real.pi * 2) x := by
    simpa using ((hasDerivAt_id x).mul_const Real.pi).mul_const (2 : ℝ)
  exact (Real.hasDerivAt_sin (x * Real.pi * 2)).comp x hL

/-- The sine loop is nonnegative on the first half of a progress cycle. -/
theorem sinLoop_nonneg {p : ℝ} (h0 : 0 ≤ p) (h2 : p ≤ 1/2) :
    0 ≤ Real.sin (p * Real.pi * 2) := by
  apply Real.sin_nonneg_of_nonneg_of_le_pi
  · nlinarith [Real.pi_pos]
  · nlinarith [Real.pi_pos]

/-- The sine loop is nonpositive on the second half of a progress cycle. -/
theorem sinLoop_nonpos {p : ℝ} (h0 : 1/2 ≤ p) (h2 : p ≤ 1) :
    Real.sin (p * Real.pi * 2) ≤ 0 := by
  have hs := Real.sin_sub_pi (p * Real.pi * 2)
  have hn : 0 ≤ Real.sin (p * Real.pi * 2 - Real.pi) := by
    apply Real.sin_nonneg_of_nonneg_of_le_pi
    · nlinarith [Real.pi_pos]
    · nlinarith [Real.pi_pos]
  linarith [hs, hn]

/-- Near a point where the sine loop is positive, its absolute value is
differentiable. -/
theorem differentiableAt_abs_sinLoop_of_pos {x : ℝ}
    (hx : 0 < Real.sin (x * Real.pi * 2)) :
    DifferentiableAt ℝ (fun p : ℝ => |Real.sin (p * Real.pi * 2)|) x := by
  have hcont : Continuous fun p : ℝ => Real.sin (p * Real.pi * 2) :=
    Real.continuous_sin.comp ((continuous_id.mul continuous_const).mul continuous_const)
  have hev : ∀ᶠ p in nhds x, Real.sin (p * Real.pi * 2) ∈ Set.Ioi (0:ℝ) :=
    hcont.continuousAt.preimage_mem_nhds (Ioi_mem_nhds hx)
  have heq : (fun p : ℝ => |Real.sin (p * Real.pi * 2)|)
      =ᶠ[nhds x] (fun p : ℝ => Real.sin (p * Real.pi * 2)) := by
    filter_upwards [hev] with p hp
    exact abs_of_pos hp
  exact heq.differentiableAt_iff.mpr (hasDerivAt_sinLoop x).differentiableAt

/-- Near a point where the sine loop is negative, its absolute value is
differentiable. -/
theorem differentiableAt_abs_sinLoop_of_neg {x : ℝ}
    (hx : Real.sin (x * Real.pi * 2) < 0) :
    DifferentiableAt ℝ (fun p : ℝ => |Real.sin (p * Real.pi * 2)|) x := by
  have hcont : Continuous fun p : ℝ => Real.sin (p * Real.pi * 2) :=
    Real.continuous_sin.comp ((continuous_id.mul continuous_const).mul continuous_const)
  have hev : ∀ᶠ p in nhds x, Real.sin (p * Real.pi * 2) ∈ Set.Iio (0:ℝ) :=
    hcont.continuousAt.preimage_mem_nhds (Iio_mem_nhds hx)
  have heq : (fun p : ℝ => |Real.sin (p * Real.pi * 2)|)
      =ᶠ[nhds x] (fun p : ℝ => -Real.sin (p * Real.pi * 2)) := by
    filter_upwards [hev] with p hp
    exact abs_of_neg hp
  exact heq.differentiableAt_iff.mpr (hasDerivAt_sinLoop x).differentiableAt.neg

/-- The absolute sine loop is not differentiable at the half-cycle point
1/2: the one-sided derivatives are π·2 and −(π·2). -/
theorem not_differentiableAt_abs_sinLoop_half :
    ¬ DifferentiableAt ℝ (fun p : ℝ => |Real.sin (p * Real.pi * 2)|) (1/2) := by
  intro hdiff
  have hu : HasDerivAt (fun p : ℝ => Real.sin (p * Real.pi * 2)) (-(Real.pi * 2)) (1/2) := by
    have hform := hasDerivAt_sinLoop (1/2)
    rw [show (1/2 : ℝ) * Real.pi * 2 = Real.pi by ring, Real.cos_pi] at hform
    simpa using hform
  have hzero : |Real.sin ((1/2 : ℝ) * Real.pi * 2)| = 0 := by
    rw [show (1/2 : ℝ) * Real.pi * 2 = Real.pi by ring, Real.sin_pi, abs_zero]
  have hright : HasDerivWithinAt (fun p : ℝ => |Real.sin (p * Real.pi * 2)|)
      (Real.pi * 2) (Set.Ici (1/2)) (1/2) := by
    have hn : HasDerivWithinAt (fun p : ℝ => -Real.sin (p * Real.pi * 2))
        (Real.pi * 2) (Set.Ici (1/2)) (1/2) := by
      simpa using (hu.neg).hasDerivWithinAt
    apply hn.congr_of_eventuallyEq
    · filter_upwards [Ico_mem_nhdsWithin_Ici' (by norm_num : (1/2:ℝ) < 1)] with p hp
      exact abs_of_nonpos (sinLoop_nonpos hp.1 hp.2.le)
    · rw [hzero, show (1/2 : ℝ) * Real.pi * 2 = Real.pi by ring, Real.sin_pi, neg_zero]
  have hleft : HasDerivWithinAt (fun p : ℝ => |Real.sin (p * Real.pi * 2)|)
      (-(Real.pi * 2)) (Set.Iic (1/2)) (1/2) := by
    apply hu.hasDerivWithinAt.congr_of_eventuallyEq
    · filter_upwards [Ioc_mem_nhdsWithin_Iic' (by norm_num : (0:ℝ) < 1/2)] with p hp
      exact abs_of_nonneg (sinLoop_nonneg hp.1.le hp.2)
    · rw [hzero, show (1/2 : ℝ) * Real.pi * 2 = Real.pi by ring, Real.sin_pi]
  have hd := hdiff.hasDerivAt
  have hIci : UniqueDiffWithinAt ℝ (Set.Ici ((1:ℝ)/2)) (1/2) :=
    uniqueDiffOn_Ici (1/2) (1/2) Set.left_mem_Ici
  have hIic : UniqueDiffWithinAt ℝ (Set.Iic ((1:ℝ)/2)) (1/2) :=
    uniqueDiffOn_Iic (1/2) (1/2) Set.right_mem_Iic
  have e1 := hright.derivWithin hIci
  have e2 := hd.hasDerivWithinAt.derivWithin hIci
  have e3 := hleft.derivWithin hIic
  have e4 := hd.hasDerivWithinAt.derivWithin hIic
  linarith [Real.pi_pos, e1, e2, e3, e4]

/-- C5 counterexample: at p = 1/4 (for width 1) the vertical-line position
is differentiable - the bounce extreme is a smooth maximum of |sin|, not a
cusp - refuting the claim that the position has cusps at p = 0.25 and
p = 0.75. -/
theorem C5_counterexample :
    DifferentiableAt ℝ (fun p : ℝ => verticalLineX p 1) (1/4) := by
  have hpos : 0 < Real.sin ((1/4 : ℝ) * Real.pi * 2) := by
    rw [show (1/4 : ℝ) * Real.pi * 2 = Real.pi / 2 by ring, Real.sin_pi_div_two]
    norm_num
  show DifferentiableAt ℝ (fun p : ℝ => |Real.sin (p * Real.pi * 2)| * 1) (1/4)
  exact (differentiableAt_abs_sinLoop_of_pos hpos).mul_const 1

/-- C5 (amended): when the vertical line is enabled the renderer strokes a
full-height line whose x position equals |sin(2πp)| × width, and this
position is a continuous function of p; but its cusps are not at
p = 0.25 and p = 0.75 - there it is differentiable (smooth bounce
extremes) - the interior cusp is at p = 0.5, where the position is not
differentiable for any nonzero width. -/
theorem C5_vertical_line (cfg : StyleConfig) (w hgt p : ℝ)
    (hv : cfg.showVertical = true) :
    Segment.mk (verticalLineX p w) 0 (verticalLineX p w) hgt
        ∈ drawLinesSegments cfg w hgt p ∧
    verticalLineX p w = |Real.sin (2 * Real.pi * p)| * w ∧
    Continuous (fun q : ℝ => verticalLineX q w) ∧
    DifferentiableAt ℝ (fun q : ℝ => verticalLineX q w) (1/4) ∧
    DifferentiableAt ℝ (fun q : ℝ => verticalLineX q w) (3/4) ∧
    (w ≠ 0 → ¬ DifferentiableAt ℝ (fun q : ℝ => verticalLineX q w) (1/2)) := by
  refine ⟨?_, ?_, ?_, ?_, ?_, ?_⟩
  · simp [drawLinesSegments, hv]
  · rw [verticalLineX, show p * Real.pi * 2 = 2 * Real.pi * p by ring]
  · show Continuous fun q : ℝ => |Real.sin (q * Real.pi * 2)| * w
    exact ((Real.continuous_sin.comp
      ((continuous_id.mul continuous_const).mul continuous_const)).abs).mul continuous_const
  · have hpos : 0 < Real.sin ((1/4 : ℝ) * Real.pi * 2) := by
      rw [show (1/4 : ℝ) * Real.pi * 2 = Real.pi / 2 by ring, Real.sin_pi_div_two]
      norm_num
    show DifferentiableAt ℝ (fun q : ℝ => |Real.sin (q * Real.pi * 2)| * w) (1/4)
    exact (differentiableAt_abs_sinLoop_of_pos hpos).mul_const w
  · have hneg : Real.sin ((3/4 : ℝ) * Real.pi * 2) < 0 := by
      rw [show (3/4 : ℝ) * Real.pi * 2 = Real.pi / 2 + Real.pi by ring, Real.sin_add_pi,
        Real.sin_pi_div_two]
      norm_num
    show DifferentiableAt ℝ (fun q : ℝ => |Real.sin (q * Real.pi * 2)| * w) (3/4)
    exact (differentiableAt_abs_sinLoop_of_neg hneg).mul_const w
  · intro hw hdiff
    have habs : DifferentiableAt ℝ (fun q : ℝ => |Real.sin (q * Real.pi * 2)|) (1/2) := by
      have hscaled : DifferentiableAt ℝ (fun q : ℝ => verticalLineX q w * w⁻¹) (1/2) :=
        hdiff.mul_const _
      have heq : (fun q : ℝ => verticalLineX q w * w⁻¹)
          = fun q : ℝ => |Real.sin (q * Real.pi * 2)| := by
        funext q
        rw [verticalLineX]
        field_simp
      rwa [heq] at hscaled
    exact not_differentiableAt_abs_sinLoop_half habs

/-- C5 witness: the amended statement at the concrete style with the
vertical line enabled, width 100, height 50, progress 0, with the
nonzero-width hypothesis discharged at width 100. -/
theorem C5_vertical_line_witness :
    (Segment.mk (verticalLineX 0 100) 0 (verticalLineX 0 100) 50
        ∈ drawLinesSegments ⟨true, false, false, 2, 70⟩ 100 50 0) ∧
    ¬ DifferentiableAt ℝ (fun q : ℝ => verticalLineX q 100) (1/2) :=
  ⟨(C5_vertical_line ⟨true, false, false, 2, 70⟩ 100 50 0 rfl).1,
   (C5_vertical_line ⟨true, false, false, 2, 70⟩ 100 50 0 rfl).2.2.2.2.2 (by norm_num)⟩

end Bypass
